import Mathlib

/-
Shallow embedding of web/queue/syncJobQueue.js: the job controller and
batch-processing engine (startSyncJob, processJob, pauseSyncJob,
resumeSyncJob, forceCancelAllJobs, updateJobStatus) over an explicit
system state holding the in-memory current job and the sync_jobs table.
External collaborators (the third-party feed and the Shopify destination
writer) are modelled at their interface boundary as functions supplied in
an environment.  Asynchronous pause requests are modelled by a visibility
point: the request becomes observable at the n-th status read performed by
the processing loop, matching the points where the source reads
currentJob.status (the while condition and the per-item checks).
-/

namespace SyncJobQueue

inductive Status
  | queued
  | processing
  | paused
  | completed
  | failed
  | cancelled
deriving DecidableEq, Repr

/-- Renders a status the way the JS template literals interpolate it. -/
def statusStr : Status → String
  | .queued => "queued"
  | .processing => "processing"
  | .paused => "paused"
  | .completed => "completed"
  | .failed => "failed"
  | .cancelled => "cancelled"

/-- One row of the sync_jobs table; the in-memory currentJob object has the
same shape (its error_message key is simply absent until merged, modelled
as none). -/
structure JobRecord where
  id : Nat
  shop_domain : String
  status : Status
  total_products : Nat
  processed_products : Nat
  failed_products : Nat
  current_offset : Nat
  error_message : Option String
deriving DecidableEq, Repr

/-- Partial update object passed to updateJobStatus (the JS `updates`). -/
structure Updates where
  status : Option Status := none
  total_products : Option Nat := none
  processed_products : Option Nat := none
  failed_products : Option Nat := none
  current_offset : Option Nat := none
  error_message : Option (Option String) := none
deriving DecidableEq, Repr

/-- JS object spread { ...r, ...u } / the SQL SET clause of updateJobStatus. -/
def mergeRecord (r : JobRecord) (u : Updates) : JobRecord :=
  { r with
    status := u.status.getD r.status
    total_products := u.total_products.getD r.total_products
    processed_products := u.processed_products.getD r.processed_products
    failed_products := u.failed_products.getD r.failed_products
    current_offset := u.current_offset.getD r.current_offset
    error_message := u.error_message.getD r.error_message }

/-- Whole-system state: the module-level `currentJob` slot and the
sync_jobs table, plus the trace of durable states this job's row went
through at each successful UPDATE (used to state flush monotonicity). -/
structure Sys where
  currentJob : Option JobRecord
  db : List JobRecord
  trace : List JobRecord
deriving DecidableEq, Repr

def sysEmpty : Sys := { currentJob := none, db := [], trace := [] }

/-- SELECT * FROM sync_jobs WHERE id = ? (getJobStatus). -/
def findRecord (jobId : Nat) (db : List JobRecord) : Option JobRecord :=
  db.find? fun r => r.id == jobId

/-- updateJobStatus: UPDATE the row, then merge the updates into the
in-memory currentJob when the id matches.  A failing UPDATE (dbOk = false)
is swallowed by the try/catch: the function returns normally, no row is
written and the in-memory merge is skipped. -/
def updateJobStatus (dbOk : Bool) (jobId : Nat) (u : Updates) (s : Sys) : Sys :=
  if dbOk then
    { currentJob := s.currentJob.map fun m => if m.id == jobId then mergeRecord m u else m
      db := s.db.map fun r => if r.id == jobId then mergeRecord r u else r
      trace :=
        match findRecord jobId s.db with
        | some r => s.trace ++ [mergeRecord r u]
        | none => s.trace }
  else s

structure Session where
  shop : String
  accessToken : String
deriving DecidableEq, Repr

/-- JS truthiness of `session && session.shop && session.accessToken`. -/
def validSession : Option Session → Bool
  | none => false
  | some s => !(s.shop == "") && !(s.accessToken == "")

/-- Return shape of fetchProductsFromThirdParty: a page of items (modelled
by opaque item ids), the best-effort total, the server-issued next cursor
(data.next_offset_value) and the hasMore flag (unused by the loop). -/
structure FeedPage where
  products : List Nat
  total : Nat
  offset_value : Option Nat
  hasMore : Bool
deriving DecidableEq, Repr

/-- External collaborators plus the asynchronous-pause schedule.  feed is
fetchProductsFromThirdParty (offset, limit); writer is
createShopifyProduct, returning none on success and the error message on
failure.  pauseAtObs = some k makes an external pauseSyncJob call on the
current processing job visible from the k-th status read of the loop
onwards. -/
structure Env where
  feed : Nat → Nat → Except String FeedPage
  writer : Nat → Option String
  pauseAtObs : Option Nat

/-- Applies the externally requested pause once it is visible: exactly the
mutation pauseSyncJob performs on a current processing job. -/
def observe (env : Env) (obs : Nat) (s : Sys) : Sys :=
  match env.pauseAtObs, s.currentJob with
  | some k, some m =>
    if k ≤ obs ∧ m.status = .processing then
      { s with currentJob := some { m with status := .paused } }
    else s
  | _, _ => s

/-- Run-local state of one processJob invocation: the loop's local
counters, the consecutive-error counter, the status-read counter, and the
lists of item ids attempted / successfully written (for stating
duplication properties). -/
structure RunSt where
  sys : Sys
  processed : Nat
  failed : Nat
  consec : Nat
  obs : Nat
  attempted : List Nat
  written : List Nat
deriving Repr

def initialRunSt (sys : Sys) (p f : Nat) : RunSt :=
  { sys := sys, processed := p, failed := f, consec := 0, obs := 0,
    attempted := [], written := [] }

/-- How the per-item for-loop ended. -/
inductive ItemsExit
  | done
  | returned
  | threw (msg : String)
deriving DecidableEq, Repr

/-- How the while-loop ended: ended covers both `break` and a false while
condition (both fall through to the final status update); returned covers
the early `return` paths; threw propagates to the catch block; fuelOut
truncates a run that has not yet finished. -/
inductive LoopExit
  | ended
  | returned
  | threw (msg : String)
  | fuelOut
deriving DecidableEq, Repr

/-- The for-loop over one page's products in processJob. -/
def procItems (env : Env) (jobId : Nat) (offset : Nat) :
    List Nat → RunSt → RunSt × ItemsExit
  | [], st => (st, .done)
  | p :: rest, st =>
    let st : RunSt := { st with sys := observe env st.obs st.sys, obs := st.obs + 1 }
    match st.sys.currentJob with
    | none => (st, .returned)
    | some m =>
      if m.id ≠ jobId then (st, .returned)
      else if m.status = .cancelled then (st, .returned)
      else if m.status = .paused then
        let sys := updateJobStatus true jobId
          { processed_products := some st.processed
            failed_products := some st.failed
            current_offset := some offset
            status := some .paused } st.sys
        ({ st with sys := sys }, .returned)
      else
        let st : RunSt := { st with attempted := st.attempted ++ [p] }
        match env.writer p with
        | none =>
          let processed := st.processed + 1
          let st : RunSt :=
            { st with processed := processed, consec := 0, written := st.written ++ [p] }
          let sysP := updateJobStatus true jobId
            ({ processed_products := some processed, failed_products := some st.failed }) st.sys
          let st : RunSt := if processed % 2 = 0 then { st with sys := sysP } else st
          procItems env jobId offset rest st
        | some err =>
          let st : RunSt := { st with failed := st.failed + 1, consec := st.consec + 1 }
          if 50 ≤ st.consec then
            (st, .threw ("Too many consecutive errors (" ++ toString st.consec ++
              "). Last error: " ++ err))
          else
            procItems env jobId offset rest st

/-- The while-loop of processJob, one recursion step per page. -/
def pageLoop (env : Env) (jobId : Nat) (batchSize : Nat) :
    Nat → Nat → RunSt → RunSt × LoopExit
  | 0, _, st => (st, .fuelOut)
  | fuel + 1, offset, st =>
    let st : RunSt := { st with sys := observe env st.obs st.sys, obs := st.obs + 1 }
    match st.sys.currentJob with
    | none => (st, .ended)
    | some m =>
      if m.id ≠ jobId ∨ m.status ≠ .processing then (st, .ended)
      else
        match env.feed offset batchSize with
        | .error e => (st, .threw e)
        | .ok batch =>
          let st : RunSt :=
            { st with sys := updateJobStatus true jobId { current_offset := some offset } st.sys }
          if batch.products = [] then (st, .ended)
          else
            match procItems env jobId offset batch.products st with
            | (st', .returned) => (st', .returned)
            | (st', .threw msg) => (st', .threw msg)
            | (st', _) =>
              let sysE := updateJobStatus true jobId
                ({ processed_products := some st'.processed
                   failed_products := some st'.failed }) st'.sys
              let st' : RunSt := { st' with sys := sysE }
              match batch.offset_value with
              | none => (st', .ended)
              | some o => pageLoop env jobId batchSize fuel o st'

/-- The catch block of processJob: flush failed status + error message,
then clear the slot. -/
def catchUpdate (jobId : Nat) (msg : String) (sys : Sys) : Sys :=
  let sys := updateJobStatus true jobId
    { status := some .failed, error_message := some (some msg) } sys
  { sys with currentJob := none }

/-- The code after the while-loop: the final completed flush runs whenever
the loop fell through (break or false condition) and the slot still holds
this job; early returns skip it; a throw lands in the catch block. -/
def finishRun (jobId : Nat) : RunSt × LoopExit → RunSt
  | (st, .ended) =>
    match st.sys.currentJob with
    | some m =>
      if m.id == jobId then
        let sys := updateJobStatus true jobId
          { status := some .completed
            processed_products := some st.processed
            failed_products := some st.failed } st.sys
        { st with sys := { sys with currentJob := none } }
      else st
    | none => st
  | (st, .returned) => st
  | (st, .threw msg) => { st with sys := catchUpdate jobId msg st.sys }
  | (st, .fuelOut) => st

/-- processJob: session validation, status flush, resume-state read,
best-effort total fetch, then the page loop and its aftermath. -/
def processJob (env : Env) (jobId : Nat) (session : Option Session)
    (batchSize : Nat) (resumeFromOffset : Option Nat) (fuel : Nat) (sys : Sys) : RunSt :=
  if validSession session = false then
    initialRunSt (catchUpdate jobId ("Invalid session - missing shop or accessToken") sys) 0 0
  else
    let sys1 := updateJobStatus true jobId { status := some .processing } sys
    let st0 := findRecord jobId sys1.db
    let processed0 := match st0 with | some r => r.processed_products | none => 0
    let failed0 := match st0 with | some r => r.failed_products | none => 0
    let offset0 := match resumeFromOffset with
      | some o => o
      | none => match st0 with | some r => r.current_offset | none => 0
    let tp := match st0 with | some r => r.total_products | none => 0
    if tp = 0 then
      match env.feed 0 batchSize with
      | .error e => initialRunSt (catchUpdate jobId e sys1) processed0 failed0
      | .ok ib =>
        let total2 := if ib.products.length < ib.total then ib.total else 0
        let sys2 := updateJobStatus true jobId
          ({ status := some .processing, total_products := some total2 }) sys1
        finishRun jobId (pageLoop env jobId batchSize fuel offset0 (initialRunSt sys2 processed0 failed0))
    else
      finishRun jobId (pageLoop env jobId batchSize fuel offset0 (initialRunSt sys1 processed0 failed0))

inductive StartErr
  | alreadyRunning
  | invalidConfig
deriving DecidableEq, Repr

/-- JS `options.batchSize || 50`: absent, and the falsy value 0, both
default to 50. -/
def jsBatchSize : Option Int → Int
  | none => 50
  | some v => if v = 0 then 50 else v

/-- startSyncJob: rejects when any current job exists, validates the batch
size, INSERTs the queued record and installs it as the current job.  The
asynchronous processJob launch is composed separately (startAndRun). -/
def startSyncJob (session : Session) (optBatch : Option Int) (newId : Nat) (s : Sys) :
    Except StartErr Nat × Sys :=
  if s.currentJob.isSome then (.error .alreadyRunning, s)
  else
    let batchSize := jsBatchSize optBatch
    if batchSize < 1 ∨ 100 < batchSize then (.error .invalidConfig, s)
    else
      let r0 : JobRecord :=
        { id := newId, shop_domain := session.shop, status := .queued,
          total_products := 0, processed_products := 0, failed_products := 0,
          current_offset := 0, error_message := none }
      (.ok newId, { currentJob := some r0, db := s.db ++ [r0], trace := s.trace })

/-- startSyncJob followed by the processJob run it launches. -/
def startAndRun (env : Env) (session : Session) (optBatch : Option Int)
    (newId : Nat) (fuel : Nat) (s : Sys) : Except StartErr Nat × RunSt :=
  match startSyncJob session optBatch newId s with
  | (.error e, s') => (.error e, initialRunSt s' 0 0)
  | (.ok id, s') =>
    (.ok id, processJob env id (some session) (jsBatchSize optBatch).toNat none fuel s')

structure OpResult where
  success : Bool
  error : Option String
deriving DecidableEq, Repr

/-- The database fallback branch of pauseSyncJob. -/
def pauseDbPath (dbOk : Bool) (jobId : Nat) (s : Sys) : OpResult × Sys :=
  match findRecord jobId s.db with
  | some r =>
    if r.status = .processing ∨ r.status = .queued then
      ({ success := true, error := none }, updateJobStatus dbOk jobId { status := some .paused } s)
    else
      ({ success := false,
         error := some ("Job is in " ++ statusStr r.status ++ " state and cannot be paused") }, s)
  | none => ({ success := false, error := some ("Job not found") }, s)

/-- pauseSyncJob: flips the live status when the id is the current
processing job; otherwise falls back to the durable record. -/
def pauseSyncJob (dbOk : Bool) (jobId : Nat) (s : Sys) : OpResult × Sys :=
  match s.currentJob with
  | some m =>
    if m.id = jobId ∧ m.status = .processing then
      ({ success := true, error := none },
       { s with currentJob := some { m with status := .paused } })
    else pauseDbPath dbOk jobId s
  | none => pauseDbPath dbOk jobId s

/-- The in-memory job object resumeSyncJob rebuilds from the durable row. -/
def rehydrateJob (jobId : Nat) (r : JobRecord) : JobRecord :=
  { id := jobId, shop_domain := r.shop_domain, status := .processing,
    total_products := r.total_products, processed_products := r.processed_products,
    failed_products := r.failed_products, current_offset := r.current_offset,
    error_message := none }

/-- resumeSyncJob: conflict check, durable lookup, paused check, session
check, slot rehydration, then batch-size validation (after the slot is
already populated) and the relaunch of processJob from the stored offset. -/
def resumeSyncJob (env : Env) (jobId : Nat) (session : Option Session)
    (optBatch : Option Int) (fuel : Nat) (s : Sys) : OpResult × RunSt :=
  if (match s.currentJob with | some m => m.id != jobId | none => false) then
    ({ success := false,
       error := some ("Another sync job is already running. Please wait for it to complete or cancel it first.") },
     initialRunSt s 0 0)
  else
    match findRecord jobId s.db with
    | none => ({ success := false, error := some ("Job not found") }, initialRunSt s 0 0)
    | some r =>
      if r.status ≠ .paused then
        ({ success := false,
           error := some ("Job is in " ++ statusStr r.status ++ " state and cannot be resumed") },
         initialRunSt s 0 0)
      else if validSession session = false then
        ({ success := false, error := some ("Invalid session - missing shop or accessToken") },
         initialRunSt s 0 0)
      else
        let s1 : Sys := { s with currentJob := some (rehydrateJob jobId r) }
        let batchSize := jsBatchSize optBatch
        if batchSize < 1 ∨ 100 < batchSize then
          ({ success := false, error := some ("Batch size must be between 1 and 100 products") },
           initialRunSt s1 0 0)
        else
          ({ success := true, error := none },
           processJob env jobId session batchSize.toNat (some r.current_offset) fuel s1)

/-- The raw sweep UPDATE at the end of forceCancelAllJobs. -/
def sweepNonTerminal (db : List JobRecord) : List JobRecord :=
  db.map fun r =>
    if r.status = .processing ∨ r.status = .queued ∨ r.status = .paused
    then { r with status := .cancelled } else r

/-- forceCancelAllJobs: cancel the tracked current job (if any), clear the
slot, then sweep every non-terminal durable row to cancelled.  Returns
(success, cancelledCount). -/
def forceCancelAllJobs (dbOk : Bool) (s : Sys) : (Bool × Nat) × Sys :=
  let step : Nat × Sys :=
    match s.currentJob with
    | some m =>
      let s1 : Sys := { s with currentJob := some { m with status := .cancelled } }
      let s2 := updateJobStatus dbOk m.id { status := some .cancelled } s1
      (1, { s2 with currentJob := none })
    | none => (0, s)
  ((true, step.1), { step.2 with db := sweepNonTerminal step.2.db })

/-! Monotonicity of the durable flush trace (claim C4): definitions. -/

/-- Counterwise comparison of two flushed records: each counter and their
sum is non-decreasing. -/
def leRec (a b : JobRecord) : Prop :=
  a.processed_products ≤ b.processed_products ∧
  a.failed_products ≤ b.failed_products ∧
  a.processed_products + a.failed_products ≤ b.processed_products + b.failed_products

/-- Adjacent flushed records are counterwise non-decreasing along the
whole trace. -/
def MonoTrace : List JobRecord → Prop
  | [] => True
  | [_] => True
  | a :: b :: t => leRec a b ∧ MonoTrace (b :: t)

/-- Last element of a flush trace. -/
def lastRec : List JobRecord → Option JobRecord
  | [] => none
  | [a] => some a
  | _ :: b :: t => lastRec (b :: t)

/-- The flush trace is monotone and its last entry is the job's current
durable record. -/
def TraceOk (j : Nat) (s : Sys) : Prop :=
  MonoTrace s.trace ∧
  ∀ r t, findRecord j s.db = some r → lastRec s.trace = some t → t = r

/-- The job's durable counters are bounded by the loop's local counters. -/
def CountersLe (j : Nat) (p f : Nat) (s : Sys) : Prop :=
  ∀ r, findRecord j s.db = some r → r.processed_products ≤ p ∧ r.failed_products ≤ f

def Inv (j p f : Nat) (s : Sys) : Prop := TraceOk j s ∧ CountersLe j p f s

/-- A full system history: a job started from the empty system under an
arbitrary feed, writer and pause schedule, then resumed (or rejected)
under a second arbitrary environment. -/
def runScenario (env1 env2 : Env) (sess : Session) (b1 : Option Int) (fuel1 : Nat)
    (sess2 : Option Session) (b2 : Option Int) (fuel2 : Nat) : Sys :=
  (resumeSyncJob env2 0 sess2 b2 fuel2 (startAndRun env1 sess b1 0 fuel1 sysEmpty).2.sys).2.sys


/-- The first branch of pauseSyncJob (live flip of the current processing
job) does not apply. -/
def notCurrentProcessing (j : Nat) (s : Sys) : Prop :=
  ∀ m, s.currentJob = some m → ¬(m.id = j ∧ m.status = .processing)


/-! Concrete scenario material: a three-page feed of two items each, an
always-failing feed, a long page with an always-failing destination
writer, and a handful of concrete states. -/

def sess0 : Session := ⟨("shop.example"), ("token123")⟩

def feed3 : Nat → Nat → Except String FeedPage := fun off _ =>
  if off = 0 then .ok ⟨[1, 2], 6, some 10, true⟩
  else if off = 10 then .ok ⟨[3, 4], 6, some 20, true⟩
  else if off = 20 then .ok ⟨[5, 6], 6, none, false⟩
  else .ok ⟨[], 6, none, false⟩

def env3 (p : Option Nat) : Env := ⟨feed3, fun _ => none, p⟩

/-- A started job running against feed3, with a pause request becoming
visible at status read p (pause after the first item of page 2 is written
corresponds to p = some 5; a pause landing between pages, observed before
any item of page 2, to p = some 4). -/
def run3 (p : Option Nat) : RunSt := (startAndRun (env3 p) sess0 none 0 20 sysEmpty).2

/-- Resuming job 0 after run3 ended. -/
def run3res (p : Option Nat) : OpResult × RunSt :=
  resumeSyncJob (env3 none) 0 (some sess0) none 20 (run3 p).sys

def completedRec6 : JobRecord :=
  { id := 0, shop_domain := ("shop.example"), status := .completed, total_products := 6,
    processed_products := 6, failed_products := 0, current_offset := 20, error_message := none }

def completedRec7 : JobRecord := { completedRec6 with processed_products := 7 }

def pausedSnap : JobRecord :=
  { id := 0, shop_domain := ("shop.example"), status := .paused, total_products := 6,
    processed_products := 3, failed_products := 0, current_offset := 10, error_message := none }

def failFeed : Nat → Nat → Except String FeedPage := fun _ _ =>
  .error ("API request failed: 500 Internal Server Error")

def envFF : Env := ⟨failFeed, fun _ => none, none⟩

def failedFeedRec : JobRecord :=
  { id := 0, shop_domain := ("shop.example"), status := .failed, total_products := 0,
    processed_products := 0, failed_products := 0, current_offset := 0,
    error_message := some ("API request failed: 500 Internal Server Error") }

def bigFeed : Nat → Nat → Except String FeedPage := fun off _ =>
  if off = 0 then .ok ⟨(List.range 60).map (fun i => i + 1), 100, some 60, true⟩
  else .ok ⟨[], 100, none, false⟩

def envFW : Env := ⟨bigFeed, fun _ => some ("boom"), none⟩

def runFW : RunSt := (startAndRun envFW sess0 none 0 20 sysEmpty).2

def thresholdRec : JobRecord :=
  { id := 0, shop_domain := ("shop.example"), status := .failed, total_products := 100,
    processed_products := 0, failed_products := 0, current_offset := 0,
    error_message := some ("Too many consecutive errors (50). Last error: boom") }

def pausedRec : JobRecord :=
  { id := 0, shop_domain := ("shop.example"), status := .paused, total_products := 6,
    processed_products := 2, failed_products := 1, current_offset := 10, error_message := none }

def sPaused : Sys := { currentJob := none, db := [pausedRec], trace := [] }

def sPausedCur : Sys := { currentJob := some pausedRec, db := [pausedRec], trace := [] }

def procRec : JobRecord :=
  { id := 1, shop_domain := ("s"), status := .processing, total_products := 0,
    processed_products := 0, failed_products := 0, current_offset := 0, error_message := none }

def sProc : Sys := { currentJob := none, db := [procRec], trace := [] }

/-! Basic facts about record lookup and the update path. -/

theorem mergeRecord_id (r : JobRecord) (u : Updates) : (mergeRecord r u).id = r.id := rfl

theorem findRecord_eq_id (j : Nat) (db : List JobRecord) (r : JobRecord)
    (h : findRecord j db = some r) : r.id = j := by
  have h2 := List.find?_some h
  simpa using h2

theorem findRecord_map (j : Nat) (g : JobRecord → JobRecord) (hg : ∀ r, (g r).id = r.id)
    (db : List JobRecord) : findRecord j (db.map g) = (findRecord j db).map g := by
  induction db with
  | nil => rfl
  | cons a l ih =>
    simp only [findRecord, List.map, List.find?] at *
    by_cases h : (a.id == j)
    · have hga : ((g a).id == j) = true := by rw [hg a]; exact h
      simp [h, hga]
    · have hga : ((g a).id == j) = false := by rw [hg a]; simpa using h
      simp only [h, hga, Bool.false_eq_true, if_neg]
      simpa using ih

theorem updateJobStatus_db (j : Nat) (u : Updates) (s : Sys) :
    (updateJobStatus true j u s).db =
      s.db.map (fun r => if r.id == j then mergeRecord r u else r) := rfl

theorem updateJobStatus_trace (j : Nat) (u : Updates) (s : Sys) :
    (updateJobStatus true j u s).trace =
      (match findRecord j s.db with
       | some r => s.trace ++ [mergeRecord r u]
       | none => s.trace) := rfl

theorem findRecord_update (j : Nat) (u : Updates) (s : Sys) :
    findRecord j (updateJobStatus true j u s).db =
      (findRecord j s.db).map (fun r => mergeRecord r u) := by
  have hg : ∀ r : JobRecord, (if r.id == j then mergeRecord r u else r).id = r.id := by
    intro r
    by_cases h : (r.id == j) <;> simp [h, mergeRecord_id]
  rw [updateJobStatus_db, findRecord_map j _ hg s.db]
  cases hfr : findRecord j s.db with
  | none => rfl
  | some r =>
    have hid : r.id = j := findRecord_eq_id j s.db r hfr
    simp [hid]

/-! Claim theorems. -/

/-- C1 counterexample: in the 3-page, 2-items-per-page feed with the pause
requested after the first item of page 2 is written (visible at status
read 5), the final record after resume has processedCount 7, not 6, and
the concatenated write traces of the two runs process item 3 twice: the
stored cursor points at the start of the in-progress page, so the items of
that page written before the pause are rewritten after resume. -/
theorem pause_resume_counterexample :
    findRecord 0 (run3res (some 5)).2.sys.db = some completedRec7 ∧
    completedRec7.processed_products = 7 ∧
    (run3 (some 5)).written ++ (run3res (some 5)).2.written = [1, 2, 3, 3, 4, 5, 6] := by
  refine ⟨by decide, rfl, by decide⟩

/-- C1 amended: an uninterrupted run of the 3-page feed processes 6 items;
a pause observed at a page boundary (before any item of the current page
has been written, status read 4) resumes loss-free and duplication-free
with final processedCount 6; but a pause observed mid-page (after the
first item of page 2, status read 5) reprocesses the already-written items
of the in-progress page after resume, giving final processedCount 7 with
item 3 written twice. -/
theorem pause_resume_amended :
    findRecord 0 (run3 none).sys.db = some completedRec6 ∧
    (run3 none).written = [1, 2, 3, 4, 5, 6] ∧
    findRecord 0 (run3res (some 4)).2.sys.db = some completedRec6 ∧
    (run3 (some 4)).written ++ (run3res (some 4)).2.written = [1, 2, 3, 4, 5, 6] ∧
    findRecord 0 (run3res (some 5)).2.sys.db = some completedRec7 ∧
    (run3 (some 5)).written ++ (run3res (some 5)).2.written = [1, 2, 3, 3, 4, 5, 6] := by
  refine ⟨by decide, by decide, by decide, by decide, by decide, by decide⟩

/-- C2: whenever a current job exists (in particular with status queued,
processing or paused), startSyncJob fails with AlreadyRunning, inserts no
durable record and leaves the whole state, including the current-job
slot, unchanged. -/
theorem start_already_running (s : Sys) (m : JobRecord) (sess : Session)
    (b : Option Int) (newId : Nat) (hm : s.currentJob = some m)
    (_hst : m.status = .queued ∨ m.status = .processing ∨ m.status = .paused) :
    startSyncJob sess b newId s = (.error .alreadyRunning, s) := by
  unfold startSyncJob
  simp [hm]

/-- C2 witness: a state whose current job is paused rejects a new start. -/
theorem start_already_running_witness :
    startSyncJob sess0 none 1 sPausedCur = (.error .alreadyRunning, sPausedCur) :=
  start_already_running sPausedCur pausedRec sess0 none 1 rfl (by decide)

/-- C3 counterexample: against a Feed Client that fails every call, the
job transitions to failed on the very first fetch, with failedCount 0 (not
the 50 the claim requires), processedCount 0, and errorMessage set to the
fetch error: the consecutive-failure threshold counts Destination Writer
failures, never feed failures. -/
theorem failure_threshold_counterexample :
    findRecord 0 (startAndRun envFF sess0 none 0 20 sysEmpty).2.sys.db = some failedFeedRec ∧
    failedFeedRec.failed_products = 0 ∧ failedFeedRec.processed_products = 0 := by
  refine ⟨by decide, rfl, rfl⟩

/-- C3 amended: with a failing Feed Client the job fails immediately with
both counters 0 and errorMessage set; the consecutive-failure threshold
(50) governs Destination Writer failures: with a writer that fails every
call the run aborts after exactly 50 item attempts with processedCount 0
and the threshold error message, while the durable failedCount keeps the
value of the last counter flush (0 here, because the abort-path flush
writes only status and errorMessage and no counter flush happened during
the failure streak). -/
theorem failure_threshold_amended :
    findRecord 0 (startAndRun envFF sess0 none 0 20 sysEmpty).2.sys.db = some failedFeedRec ∧
    findRecord 0 runFW.sys.db = some thresholdRec ∧
    runFW.attempted.length = 50 ∧ runFW.written = [] ∧
    runFW.failed = 50 ∧ runFW.processed = 0 := by
  refine ⟨by decide, by decide, by decide, by decide, by decide, by decide⟩

/-- C5 counterexample: in the 3-page scenario with the pause observed
after the first item of page 2, the Batch Processor performs the paused
flush (durable record paused with counters 3/0 and the in-progress page's
cursor) but does not clear the current-job slot: the slot still holds the
paused job after the processor returns. -/
theorem pause_flush_counterexample :
    findRecord 0 (run3 (some 5)).sys.db = some pausedSnap ∧
    (run3 (some 5)).sys.currentJob ≠ none := by
  refine ⟨by decide, by decide⟩

/-- C5 amended: on observing a pause request the Batch Processor flushes
the durable record with status paused, the counters as of the last
completed item, and the cursor of the in-progress page, and then returns
leaving the current-job slot still holding the paused job (the slot is not
cleared; a later Resume overwrites it). -/
theorem pause_flush_amended :
    findRecord 0 (run3 (some 5)).sys.db = some pausedSnap ∧
    (run3 (some 5)).sys.trace.getLast? = some pausedSnap ∧
    (run3 (some 5)).sys.currentJob = some pausedSnap := by
  refine ⟨by decide, by decide, by decide⟩

/-- C8 counterexample: batchSize 0 is outside the 1-100 range, yet Start
does not fail with InvalidConfig: the JS default `options.batchSize || 50`
treats the falsy 0 as unset, so the job starts with batch size 50. -/
theorem batch_size_validation_counterexample :
    (startSyncJob sess0 (some 0) 0 sysEmpty).1 = .ok 0 := rfl

/-- C8 amended: with no current job, every batchSize outside 1-100 other
than 0 fails with InvalidConfig and leaves the state unchanged; every
batchSize within 1-100 passes validation and the job is created; batchSize
0 is treated as unset (JS falsy default) and also passes, defaulting to
50. -/
theorem batch_size_validation_amended (s : Sys) (sess : Session) (b : Int) (newId : Nat)
    (hcur : s.currentJob = none) :
    ((b < 1 ∨ 100 < b) → b ≠ 0 →
      startSyncJob sess (some b) newId s = (.error .invalidConfig, s)) ∧
    (1 ≤ b → b ≤ 100 → (startSyncJob sess (some b) newId s).1 = .ok newId) ∧
    (startSyncJob sess (some 0) newId s).1 = .ok newId := by
  refine ⟨?_, ?_, ?_⟩
  · intro hrange hb0
    unfold startSyncJob jsBatchSize
    simp only [hcur, Option.isSome_none, Bool.false_eq_true, if_false, if_neg hb0]
    rw [if_pos hrange]
  · intro h1 h2
    unfold startSyncJob jsBatchSize
    have hb0 : ¬ b = 0 := by omega
    have hrange : ¬ (b < 1 ∨ 100 < b) := by omega
    simp only [hcur, Option.isSome_none, Bool.false_eq_true, if_false, if_neg hb0,
      if_neg hrange]
  · unfold startSyncJob jsBatchSize
    simp [hcur]

/-- C8 witness: batch size 200 is rejected with InvalidConfig and the
state is untouched; batch size 50 passes; batch size 0 passes. -/
theorem batch_size_validation_witness :
    startSyncJob sess0 (some 200) 7 sysEmpty = (.error .invalidConfig, sysEmpty) ∧
    (startSyncJob sess0 (some 50) 7 sysEmpty).1 = .ok 7 ∧
    (startSyncJob sess0 (some 0) 7 sysEmpty).1 = .ok 7 := by
  refine ⟨(batch_size_validation_amended sysEmpty sess0 200 7 rfl).1 (by decide) (by decide),
    (batch_size_validation_amended sysEmpty sess0 50 7 rfl).2.1 (by decide) (by decide),
    (batch_size_validation_amended sysEmpty sess0 0 7 rfl).2.2⟩

/-! Sweep lemmas for the cancel-all path. -/

theorem sweep_no_nonterminal (db : List JobRecord) :
    ∀ r ∈ sweepNonTerminal db,
      r.status ≠ .processing ∧ r.status ≠ .queued ∧ r.status ≠ .paused := by
  intro r hr
  simp only [sweepNonTerminal, List.mem_map] at hr
  obtain ⟨a, _, rfl⟩ := hr
  by_cases h : a.status = .processing ∨ a.status = .queued ∨ a.status = .paused
  · rw [if_pos h]
    refine ⟨by simp, by simp, by simp⟩
  · rw [if_neg h]
    push_neg at h
    exact h

theorem sweep_mem (db : List JobRecord) (r : JobRecord) (hr : r ∈ db)
    (h : r.status = .processing ∨ r.status = .queued ∨ r.status = .paused) :
    { r with status := Status.cancelled } ∈ sweepNonTerminal db := by
  simp only [sweepNonTerminal, List.mem_map]
  exact ⟨r, hr, by rw [if_pos h]⟩

theorem sweep_preserves_id (r : JobRecord) :
    (if r.status = .processing ∨ r.status = .queued ∨ r.status = .paused
     then { r with status := Status.cancelled } else r).id = r.id := by
  split <;> rfl

theorem pauseSyncJob_db_path (dbOk : Bool) (j : Nat) (s : Sys)
    (h : notCurrentProcessing j s) :
    pauseSyncJob dbOk j s = pauseDbPath dbOk j s := by
  unfold pauseSyncJob
  cases hm : s.currentJob with
  | none => rfl
  | some m => exact if_neg (h m hm)

theorem findRecord_update_generic (j : Nat) (u : Updates) (s : Sys) (r : JobRecord)
    (h : findRecord j s.db = some r) :
    findRecord j (updateJobStatus true j u s).db = some (mergeRecord r u) := by
  rw [findRecord_update, h]
  rfl

/-- C6 counterexample: with an empty current-job slot and a durable record
for job 1 in status processing, Pause(1) succeeds even though job 1 is not
the current job, where the claim requires NotFound. -/
theorem pause_transition_counterexample :
    sProc.currentJob = none ∧
    (pauseSyncJob true 1 sProc).1 = { success := true, error := none } :=
  ⟨rfl, rfl⟩

/-- C6 amended: Pause(id) succeeds and flips the live status when id is
the current job with live status processing; otherwise it falls back to
the durable record: if that record exists with status processing or
queued, Pause succeeds and sets the durable status to paused (counters
untouched) regardless of whether the job is current; if the record exists
in any other status it fails with the InvalidState message and changes
nothing; only when no durable record exists (and the live branch did not
apply) does it fail with NotFound, changing nothing. -/
theorem pause_transition_amended (s : Sys) (j : Nat) :
    (∀ m, s.currentJob = some m → m.id = j → m.status = .processing →
      pauseSyncJob true j s =
        ({ success := true, error := none },
         { s with currentJob := some { m with status := Status.paused } })) ∧
    (notCurrentProcessing j s →
      (∀ r, findRecord j s.db = some r → (r.status = .processing ∨ r.status = .queued) →
        (pauseSyncJob true j s).1 = { success := true, error := none } ∧
        ∃ r2, findRecord j (pauseSyncJob true j s).2.db = some r2 ∧
          r2.status = .paused ∧ r2.processed_products = r.processed_products ∧
          r2.failed_products = r.failed_products ∧ r2.current_offset = r.current_offset) ∧
      (∀ r, findRecord j s.db = some r → ¬(r.status = .processing ∨ r.status = .queued) →
        pauseSyncJob true j s =
          ({ success := false,
             error := some ("Job is in " ++ statusStr r.status ++ " state and cannot be paused") },
           s)) ∧
      (findRecord j s.db = none →
        pauseSyncJob true j s = ({ success := false, error := some ("Job not found") }, s))) := by
  constructor
  · intro m hm hid hstat
    simp only [pauseSyncJob, hm]
    exact if_pos ⟨hid, hstat⟩
  · intro hnc
    refine ⟨?_, ?_, ?_⟩
    · intro r hfr hst
      rw [pauseSyncJob_db_path true j s hnc]
      simp only [pauseDbPath, hfr]
      rw [if_pos hst]
      exact ⟨rfl, mergeRecord r ({ status := some .paused }),
        findRecord_update_generic j _ s r hfr, rfl, rfl, rfl, rfl⟩
    · intro r hfr hst
      rw [pauseSyncJob_db_path true j s hnc]
      simp only [pauseDbPath, hfr]
      rw [if_neg hst]
    · intro hfr
      rw [pauseSyncJob_db_path true j s hnc]
      simp only [pauseDbPath, hfr]

/-- C6 witness: the four branches at concrete states: live flip of a
current processing job; durable pause of a non-current processing record;
InvalidState on a paused durable record; NotFound on an absent id. -/
theorem pause_transition_witness :
    pauseSyncJob true 1 { currentJob := some procRec, db := [procRec], trace := [] } =
      ({ success := true, error := none },
       { currentJob := some { procRec with status := Status.paused },
         db := [procRec], trace := [] }) ∧
    (pauseSyncJob true 1 sProc).1 = { success := true, error := none } ∧
    pauseSyncJob true 0 sPaused =
      ({ success := false,
         error := some ("Job is in paused state and cannot be paused") }, sPaused) ∧
    pauseSyncJob true 9 sysEmpty =
      ({ success := false, error := some ("Job not found") }, sysEmpty) := by
  refine ⟨?_, ?_, ?_, ?_⟩
  · exact (pause_transition_amended
      { currentJob := some procRec, db := [procRec], trace := [] } 1).1 procRec rfl rfl rfl
  · exact (((pause_transition_amended sProc 1).2
      (fun m hm => Option.noConfusion hm)).1 procRec rfl (Or.inl rfl)).1
  · exact ((pause_transition_amended sPaused 0).2
      (fun m hm => Option.noConfusion hm)).2.1 pausedRec rfl (by decide)
  · exact ((pause_transition_amended sysEmpty 9).2
      (fun m hm => Option.noConfusion hm)).2.2 rfl

/-- C7: forceCancelAllJobs always reports success; with no current job it
returns a cancelled count of 0 while still sweeping every durable
processing/queued/paused record to cancelled (and leaving no non-terminal
record behind); with a current job it returns 1, clears the slot, and that
job's durable record ends up cancelled. -/
theorem force_cancel_all_spec (s : Sys) :
    (forceCancelAllJobs true s).1.1 = true ∧
    (s.currentJob = none →
      (forceCancelAllJobs true s).1.2 = 0 ∧
      (∀ r ∈ s.db, (r.status = .processing ∨ r.status = .queued ∨ r.status = .paused) →
        { r with status := Status.cancelled } ∈ (forceCancelAllJobs true s).2.db) ∧
      (∀ r ∈ (forceCancelAllJobs true s).2.db,
        r.status ≠ .processing ∧ r.status ≠ .queued ∧ r.status ≠ .paused)) ∧
    (∀ m, s.currentJob = some m →
      (forceCancelAllJobs true s).1.2 = 1 ∧
      (forceCancelAllJobs true s).2.currentJob = none ∧
      (∀ r, findRecord m.id s.db = some r →
        ∃ r2, findRecord m.id (forceCancelAllJobs true s).2.db = some r2 ∧
          r2.status = .cancelled) ∧
      (∀ r ∈ (forceCancelAllJobs true s).2.db,
        r.status ≠ .processing ∧ r.status ≠ .queued ∧ r.status ≠ .paused)) := by
  refine ⟨?_, ?_, ?_⟩
  · unfold forceCancelAllJobs
    cases s.currentJob <;> rfl
  · intro hm
    unfold forceCancelAllJobs
    rw [hm]
    exact ⟨rfl, fun r hr hst => sweep_mem s.db r hr hst, sweep_no_nonterminal s.db⟩
  · intro m hm
    simp only [forceCancelAllJobs, hm]
    refine ⟨trivial, trivial, ?_, sweep_no_nonterminal _⟩
    intro r hfr
    refine ⟨mergeRecord r ({ status := some Status.cancelled }), ?_, rfl⟩
    have h2 : findRecord m.id (updateJobStatus true m.id ({ status := some Status.cancelled })
        { s with currentJob := some { m with status := Status.cancelled } }).db =
        some (mergeRecord r ({ status := some Status.cancelled })) :=
      findRecord_update_generic m.id _ _ r hfr
    simp only [sweepNonTerminal]
    rw [findRecord_map m.id _ sweep_preserves_id, h2]
    have hmerge : (mergeRecord r ({ status := some Status.cancelled })).status =
        Status.cancelled := rfl
    simp [hmerge]

/-- C7 witness: with no current job and one paused durable record the
count is 0 and the record is swept to cancelled; with a current processing
job the count is 1 and its durable record becomes cancelled. -/
theorem force_cancel_all_spec_witness :
    (forceCancelAllJobs true sPaused).1.2 = 0 ∧
    ({ pausedRec with status := Status.cancelled } ∈ (forceCancelAllJobs true sPaused).2.db) ∧
    (forceCancelAllJobs true { currentJob := some procRec, db := [procRec], trace := [] }).1.2 = 1 ∧
    (∃ r2, findRecord 1 (forceCancelAllJobs true
        { currentJob := some procRec, db := [procRec], trace := [] }).2.db = some r2 ∧
      r2.status = .cancelled) := by
  refine ⟨((force_cancel_all_spec sPaused).2.1 rfl).1,
    ((force_cancel_all_spec sPaused).2.1 rfl).2.1 pausedRec (by decide) (by decide),
    (((force_cancel_all_spec
      { currentJob := some procRec, db := [procRec], trace := [] }).2.2) procRec rfl).1,
    (((force_cancel_all_spec
      { currentJob := some procRec, db := [procRec], trace := [] }).2.2) procRec rfl).2.2.1
      procRec rfl⟩

theorem startSyncJob_invalidConfig (s : Sys) (sess : Session) (b : Int) (newId : Nat)
    (hcur : s.currentJob = none) (hrange : b < 1 ∨ 100 < b) (hb0 : b ≠ 0) :
    startSyncJob sess (some b) newId s = (.error .invalidConfig, s) := by
  unfold startSyncJob jsBatchSize
  simp only [hcur, Option.isSome_none, Bool.false_eq_true, if_false, if_neg hb0]
  rw [if_pos hrange]

/-- C9 counterexample: resuming a paused job with an out-of-range batch
size (200) is rejected, yet the live current-job slot is mutated before
the rejection: it was empty and afterwards holds the rehydrated job with
in-memory status processing, because resumeSyncJob validates the batch
size only after installing the slot. -/
theorem config_error_rejection_counterexample :
    sPaused.currentJob = none ∧
    (resumeSyncJob envFF 0 (some sess0) (some 200) 20 sPaused).1.success = false ∧
    (resumeSyncJob envFF 0 (some sess0) (some 200) 20 sPaused).2.sys.currentJob =
      some (rehydrateJob 0 pausedRec) := by
  refine ⟨rfl, rfl, by decide⟩

/-- C9 amended: Start rejects an out-of-range (non-zero) batch size before
any mutation; Resume rejects a missing or invalid session with no
mutation at all; but Resume validates the batch size only after
installing the rehydrated job in the live slot, so a Resume rejected for
an out-of-range batch size leaves the slot populated (with in-memory
status processing) while the durable store and flush trace are untouched
and no processor is launched. -/
theorem config_error_rejection_amended (s : Sys) (env : Env) (sess : Session)
    (osess : Option Session) (b : Int) (j newId fuel : Nat) :
    (s.currentJob = none → (b < 1 ∨ 100 < b) → b ≠ 0 →
      startSyncJob sess (some b) newId s = (.error .invalidConfig, s)) ∧
    (validSession osess = false →
      (resumeSyncJob env j osess (some b) fuel s).1.success = false ∧
      (resumeSyncJob env j osess (some b) fuel s).2.sys = s) ∧
    (∀ r, (match s.currentJob with | some m => m.id != j | none => false) = false →
      findRecord j s.db = some r → r.status = .paused → validSession osess = true →
      (b < 1 ∨ 100 < b) → b ≠ 0 →
      (resumeSyncJob env j osess (some b) fuel s).1.success = false ∧
      (resumeSyncJob env j osess (some b) fuel s).2.sys =
        { s with currentJob := some (rehydrateJob j r) } ∧
      (resumeSyncJob env j osess (some b) fuel s).2.sys.db = s.db ∧
      (resumeSyncJob env j osess (some b) fuel s).2.sys.trace = s.trace) := by
  refine ⟨fun hcur => startSyncJob_invalidConfig s sess b newId hcur, ?_, ?_⟩
  · intro hvs
    unfold resumeSyncJob
    simp only [hvs, eq_self_iff_true, if_true]
    split
    · exact ⟨rfl, rfl⟩
    · split
      · exact ⟨rfl, rfl⟩
      · split
        · exact ⟨rfl, rfl⟩
        · exact ⟨rfl, rfl⟩
  · intro r hc hfr hp hv hrange hb0
    unfold resumeSyncJob
    rw [if_neg (by rw [hc]; exact Bool.false_ne_true)]
    simp only [hfr]
    rw [if_neg (show ¬ r.status ≠ Status.paused from fun h => h hp)]
    rw [if_neg (show ¬ validSession osess = false from by
      rw [hv]; exact fun h => Bool.noConfusion h)]
    have hbs : jsBatchSize (some b) = b := by
      simp only [jsBatchSize]
      rw [if_neg hb0]
    rw [hbs, if_pos hrange]
    exact ⟨rfl, rfl, rfl, rfl⟩

/-- C9 witness: Start with batch 101 rejects cleanly; Resume with no
session rejects with no mutation; Resume of the stored paused job with
batch 200 rejects but leaves the slot populated. -/
theorem config_error_rejection_witness :
    startSyncJob sess0 (some 101) 3 sysEmpty = (.error .invalidConfig, sysEmpty) ∧
    ((resumeSyncJob envFF 0 none (some 50) 20 sPaused).1.success = false ∧
      (resumeSyncJob envFF 0 none (some 50) 20 sPaused).2.sys = sPaused) ∧
    ((resumeSyncJob envFF 0 (some sess0) (some 200) 20 sPaused).2.sys =
      { sPaused with currentJob := some (rehydrateJob 0 pausedRec) }) := by
  refine ⟨(config_error_rejection_amended sysEmpty envFF sess0 (some sess0) 101 0 3 20).1
      rfl (by decide) (by decide),
    (config_error_rejection_amended sPaused envFF sess0 none 50 0 0 20).2.1 rfl,
    ((config_error_rejection_amended sPaused envFF sess0 (some sess0) 200 0 0 20).2.2
      pausedRec rfl rfl rfl rfl (by decide) (by decide)).2.1⟩

/-- C10: a failing durable UPDATE inside updateJobStatus is swallowed: the
call returns normally with the whole state unchanged (no row written, the
in-memory current job not merged), and callers going through it still
report success: pauseSyncJob's durable path returns success with the
state untouched, and forceCancelAllJobs still reports success with a
cancelled count of 1 and clears the slot. -/
theorem update_job_status_swallow (j : Nat) (u : Updates) (s : Sys) :
    updateJobStatus false j u s = s ∧
    (∀ r, notCurrentProcessing j s → findRecord j s.db = some r →
      (r.status = .processing ∨ r.status = .queued) →
      pauseSyncJob false j s = ({ success := true, error := none }, s)) ∧
    (∀ m, s.currentJob = some m →
      (forceCancelAllJobs false s).1 = (true, 1) ∧
      (forceCancelAllJobs false s).2.currentJob = none) := by
  refine ⟨rfl, ?_, ?_⟩
  · intro r hnc hfr hst
    rw [pauseSyncJob_db_path false j s hnc]
    simp only [pauseDbPath, hfr]
    rw [if_pos hst]
    rfl
  · intro m hm
    simp only [forceCancelAllJobs, hm]
    exact ⟨trivial, trivial⟩

/-- C10 witness: a swallowed UPDATE leaves the state untouched, the pause
caller still reports success on the durable path, and cancel-all still
reports success with count 1. -/
theorem update_job_status_swallow_witness :
    updateJobStatus false 1 ({ status := some Status.paused }) sProc = sProc ∧
    pauseSyncJob false 1 sProc = ({ success := true, error := none }, sProc) ∧
    (forceCancelAllJobs false sPausedCur).1 = (true, 1) := by
  refine ⟨(update_job_status_swallow 1 ({ status := some Status.paused }) sProc).1,
    (update_job_status_swallow 1 ({ status := some Status.paused }) sProc).2.1 procRec
      (fun m hm => Option.noConfusion hm) rfl (Or.inl rfl),
    ((update_job_status_swallow 0 ({ status := none }) sPausedCur).2.2 pausedRec rfl).1⟩

theorem leRec_refl (a : JobRecord) : leRec a a := ⟨le_refl _, le_refl _, le_refl _⟩

theorem lastRec_snoc (y : JobRecord) :
    ∀ l : List JobRecord, lastRec (l ++ [y]) = some y
  | [] => rfl
  | [_] => rfl
  | _ :: b :: t => lastRec_snoc y (b :: t)

theorem monoTrace_snoc (y : JobRecord) :
    ∀ l : List JobRecord, MonoTrace l → (∀ x, lastRec l = some x → leRec x y) →
      MonoTrace (l ++ [y])
  | [], _, _ => trivial
  | [a], _, hy => ⟨hy a rfl, trivial⟩
  | _ :: b :: t, h, hy =>
    ⟨h.1, monoTrace_snoc y (b :: t) h.2 (fun x hx => hy x hx)⟩

theorem updateJobStatus_trace_some (j : Nat) (u : Updates) (s : Sys) (r0 : JobRecord)
    (h : findRecord j s.db = some r0) :
    (updateJobStatus true j u s).trace = s.trace ++ [mergeRecord r0 u] := by
  rw [updateJobStatus_trace, h]

theorem updateJobStatus_trace_none (j : Nat) (u : Updates) (s : Sys)
    (h : findRecord j s.db = none) :
    (updateJobStatus true j u s).trace = s.trace := by
  rw [updateJobStatus_trace, h]

theorem mergeRecord_processed_none (r : JobRecord) (u : Updates)
    (hp : u.processed_products = none) :
    (mergeRecord r u).processed_products = r.processed_products := by
  simp [mergeRecord, hp]

theorem mergeRecord_failed_none (r : JobRecord) (u : Updates)
    (hf : u.failed_products = none) :
    (mergeRecord r u).failed_products = r.failed_products := by
  simp [mergeRecord, hf]

theorem mergeRecord_processed_some (r : JobRecord) (u : Updates) (p2 : Nat)
    (hp : u.processed_products = some p2) :
    (mergeRecord r u).processed_products = p2 := by
  simp [mergeRecord, hp]

theorem mergeRecord_failed_some (r : JobRecord) (u : Updates) (f2 : Nat)
    (hf : u.failed_products = some f2) :
    (mergeRecord r u).failed_products = f2 := by
  simp [mergeRecord, hf]

theorem leRec_merge_none (r : JobRecord) (u : Updates)
    (hp : u.processed_products = none) (hf : u.failed_products = none) :
    leRec r (mergeRecord r u) := by
  unfold leRec
  rw [mergeRecord_processed_none r u hp, mergeRecord_failed_none r u hf]
  exact ⟨le_refl _, le_refl _, le_refl _⟩

theorem leRec_merge_some (r : JobRecord) (u : Updates) (p2 f2 : Nat)
    (hp : u.processed_products = some p2) (hf : u.failed_products = some f2)
    (h1 : r.processed_products ≤ p2) (h2 : r.failed_products ≤ f2) :
    leRec r (mergeRecord r u) := by
  unfold leRec
  rw [mergeRecord_processed_some r u p2 hp, mergeRecord_failed_some r u f2 hf]
  exact ⟨h1, h2, Nat.add_le_add h1 h2⟩

theorem traceOk_flush (j : Nat) (u : Updates) (s : Sys) (hOk : TraceOk j s)
    (hu : ∀ r, findRecord j s.db = some r → leRec r (mergeRecord r u)) :
    TraceOk j (updateJobStatus true j u s) := by
  cases hfr : findRecord j s.db with
  | none =>
    refine ⟨?_, ?_⟩
    · rw [updateJobStatus_trace_none j u s hfr]
      exact hOk.1
    · intro r t hr _
      rw [findRecord_update, hfr] at hr
      exact absurd hr (by simp)
  | some r0 =>
    refine ⟨?_, ?_⟩
    · rw [updateJobStatus_trace_some j u s r0 hfr]
      refine monoTrace_snoc (mergeRecord r0 u) s.trace hOk.1 ?_
      intro x hx
      have hx2 : x = r0 := hOk.2 r0 x hfr hx
      rw [hx2]
      exact hu r0 hfr
    · intro r t hr ht
      rw [findRecord_update, hfr] at hr
      have hr2 : mergeRecord r0 u = r := Option.some.inj hr
      rw [updateJobStatus_trace_some j u s r0 hfr, lastRec_snoc] at ht
      have ht2 : mergeRecord r0 u = t := Option.some.inj ht
      rw [← hr2, ← ht2]

theorem countersLe_flush_none (j : Nat) (u : Updates) (s : Sys) (p f : Nat)
    (hp : u.processed_products = none) (hf : u.failed_products = none)
    (h : CountersLe j p f s) : CountersLe j p f (updateJobStatus true j u s) := by
  intro r hr
  rw [findRecord_update] at hr
  cases hfr : findRecord j s.db with
  | none =>
    rw [hfr] at hr
    exact absurd hr (by simp)
  | some r0 =>
    rw [hfr] at hr
    have hr2 : mergeRecord r0 u = r := Option.some.inj hr
    rw [← hr2, mergeRecord_processed_none r0 u hp, mergeRecord_failed_none r0 u hf]
    exact h r0 hfr

theorem countersLe_flush_set (j : Nat) (u : Updates) (s : Sys) (p2 f2 : Nat)
    (hp : u.processed_products = some p2) (hf : u.failed_products = some f2) :
    CountersLe j p2 f2 (updateJobStatus true j u s) := by
  intro r hr
  rw [findRecord_update] at hr
  cases hfr : findRecord j s.db with
  | none =>
    rw [hfr] at hr
    exact absurd hr (by simp)
  | some r0 =>
    rw [hfr] at hr
    have hr2 : mergeRecord r0 u = r := Option.some.inj hr
    rw [← hr2, mergeRecord_processed_some r0 u p2 hp, mergeRecord_failed_some r0 u f2 hf]
    exact ⟨le_refl _, le_refl _⟩

theorem countersLe_mono (j p f p2 f2 : Nat) (s : Sys) (hp : p ≤ p2) (hf : f ≤ f2)
    (h : CountersLe j p f s) : CountersLe j p2 f2 s :=
  fun r hr => ⟨le_trans (h r hr).1 hp, le_trans (h r hr).2 hf⟩

theorem inv_mono (j p f p2 f2 : Nat) (s : Sys) (h : Inv j p f s) (hp : p ≤ p2)
    (hf : f ≤ f2) : Inv j p2 f2 s :=
  ⟨h.1, countersLe_mono j p f p2 f2 s hp hf h.2⟩

theorem inv_flush_none (j p f : Nat) (u : Updates) (s : Sys)
    (hp : u.processed_products = none) (hf : u.failed_products = none)
    (h : Inv j p f s) : Inv j p f (updateJobStatus true j u s) :=
  ⟨traceOk_flush j u s h.1 (fun r _ => leRec_merge_none r u hp hf),
   countersLe_flush_none j u s p f hp hf h.2⟩

theorem inv_flush_set (j p2 f2 : Nat) (u : Updates) (s : Sys)
    (hp : u.processed_products = some p2) (hf : u.failed_products = some f2)
    (h : Inv j p2 f2 s) : Inv j p2 f2 (updateJobStatus true j u s) :=
  ⟨traceOk_flush j u s h.1
      (fun r hr => leRec_merge_some r u p2 f2 hp hf (h.2 r hr).1 (h.2 r hr).2),
   countersLe_flush_set j u s p2 f2 hp hf⟩

theorem observe_db (env : Env) (k : Nat) (s : Sys) : (observe env k s).db = s.db := by
  unfold observe
  split
  · split <;> rfl
  · rfl

theorem observe_trace (env : Env) (k : Nat) (s : Sys) :
    (observe env k s).trace = s.trace := by
  unfold observe
  split
  · split <;> rfl
  · rfl

theorem inv_observe (env : Env) (k j p f : Nat) (s : Sys) (h : Inv j p f s) :
    Inv j p f (observe env k s) := by
  refine ⟨⟨?_, ?_⟩, ?_⟩
  · rw [observe_trace]
    exact h.1.1
  · intro r t hr ht
    rw [observe_db] at hr
    rw [observe_trace] at ht
    exact h.1.2 r t hr ht
  · intro r hr
    rw [observe_db] at hr
    exact h.2 r hr

theorem inv_catch (j p f : Nat) (msg : String) (s : Sys) (h : Inv j p f s) :
    Inv j p f (catchUpdate j msg s) :=
  inv_flush_none j p f _ s rfl rfl h

theorem traceOk_of_trace_nil (j : Nat) (s : Sys) (h : s.trace = []) : TraceOk j s := by
  refine ⟨?_, ?_⟩
  · rw [h]
    exact trivial
  · intro r t _ ht
    rw [h] at ht
    exact Option.noConfusion ht

theorem countersLe_read (j : Nat) (s : Sys) :
    CountersLe j
      (match findRecord j s.db with | some r => r.processed_products | none => 0)
      (match findRecord j s.db with | some r => r.failed_products | none => 0) s := by
  intro r hr
  rw [hr]
  exact ⟨le_refl _, le_refl _⟩

theorem procItems_inv (env : Env) (j off : Nat) :
    ∀ (items : List Nat) (st : RunSt), Inv j st.processed st.failed st.sys →
      Inv j (procItems env j off items st).1.processed
        (procItems env j off items st).1.failed (procItems env j off items st).1.sys := by
  intro items
  induction items with
  | nil => intro st h; exact h
  | cons p rest ih =>
    intro st h
    have hobs : Inv j st.processed st.failed (observe env st.obs st.sys) :=
      inv_observe env st.obs j st.processed st.failed st.sys h
    rw [procItems]
    cases hcj : (observe env st.obs st.sys).currentJob with
    | none =>
      simp only [hcj]
      exact hobs
    | some m =>
      simp only [hcj]
      by_cases hid : m.id ≠ j
      · rw [if_pos hid]
        exact hobs
      · rw [if_neg hid]
        by_cases hcanc : m.status = Status.cancelled
        · rw [if_pos hcanc]
          exact hobs
        · rw [if_neg hcanc]
          by_cases hpaused : m.status = Status.paused
          · rw [if_pos hpaused]
            exact inv_flush_set j st.processed st.failed _ _ rfl rfl hobs
          · rw [if_neg hpaused]
            cases hw : env.writer p with
            | none =>
              simp only [hw]
              by_cases hm2 : (st.processed + 1) % 2 = 0
              · rw [if_pos hm2]
                refine ih _ ?_
                exact inv_flush_set j (st.processed + 1) st.failed _ _ rfl rfl
                  (inv_mono j st.processed st.failed (st.processed + 1) st.failed _
                    hobs (Nat.le_succ _) (le_refl _))
              · rw [if_neg hm2]
                refine ih _ ?_
                exact inv_mono j st.processed st.failed (st.processed + 1) st.failed _
                  hobs (Nat.le_succ _) (le_refl _)
            | some err =>
              simp only [hw]
              by_cases hc50 : 50 ≤ st.consec + 1
              · rw [if_pos hc50]
                exact inv_mono j st.processed st.failed st.processed (st.failed + 1) _
                  hobs (le_refl _) (Nat.le_succ _)
              · rw [if_neg hc50]
                refine ih _ ?_
                exact inv_mono j st.processed st.failed st.processed (st.failed + 1) _
                  hobs (le_refl _) (Nat.le_succ _)

theorem pageLoop_inv (env : Env) (j b : Nat) :
    ∀ (fuel off : Nat) (st : RunSt), Inv j st.processed st.failed st.sys →
      Inv j (pageLoop env j b fuel off st).1.processed
        (pageLoop env j b fuel off st).1.failed (pageLoop env j b fuel off st).1.sys := by
  intro fuel
  induction fuel with
  | zero => intro off st h; exact h
  | succ fuel ih =>
    intro off st h
    have hobs : Inv j st.processed st.failed (observe env st.obs st.sys) :=
      inv_observe env st.obs j st.processed st.failed st.sys h
    rw [pageLoop]
    cases hcj : (observe env st.obs st.sys).currentJob with
    | none =>
      simp only [hcj]
      exact hobs
    | some m =>
      simp only [hcj]
      by_cases hcond : m.id ≠ j ∨ m.status ≠ Status.processing
      · rw [if_pos hcond]
        exact hobs
      · rw [if_neg hcond]
        cases hfd : env.feed off b with
        | error e =>
          simp only [hfd]
          exact hobs
        | ok batch =>
          simp only [hfd]
          have hofs : Inv j st.processed st.failed
              (updateJobStatus true j ({ current_offset := some off })
                (observe env st.obs st.sys)) :=
            inv_flush_none j st.processed st.failed _ _ rfl rfl hobs
          by_cases hempty : batch.products = []
          · rw [if_pos hempty]
            exact hofs
          · rw [if_neg hempty]
            have hpi := procItems_inv env j off batch.products
              { st with
                sys := updateJobStatus true j ({ current_offset := some off })
                  (observe env st.obs st.sys)
                obs := st.obs + 1 } hofs
            rcases hpe : procItems env j off batch.products
              { st with
                sys := updateJobStatus true j ({ current_offset := some off })
                  (observe env st.obs st.sys)
                obs := st.obs + 1 } with ⟨st2, ex⟩
            rw [hpe] at hpi
            cases ex with
            | returned =>
              simp only [hpe]
              exact hpi
            | threw msg =>
              simp only [hpe]
              exact hpi
            | done =>
              simp only [hpe]
              have hflush : Inv j st2.processed st2.failed
                  (updateJobStatus true j
                    ({ processed_products := some st2.processed
                       failed_products := some st2.failed }) st2.sys) :=
                inv_flush_set j st2.processed st2.failed _ _ rfl rfl hpi
              cases hov : batch.offset_value with
              | none =>
                simp only [hov]
                exact hflush
              | some o =>
                simp only [hov]
                exact ih o _ hflush

theorem finishRun_inv (j : Nat) (r : RunSt × LoopExit)
    (h : Inv j r.1.processed r.1.failed r.1.sys) :
    Inv j (finishRun j r).processed (finishRun j r).failed (finishRun j r).sys := by
  rcases r with ⟨st, ex⟩
  cases ex with
  | ended =>
    rw [finishRun]
    cases hcj : st.sys.currentJob with
    | none =>
      simp only [hcj]
      exact h
    | some m =>
      simp only [hcj]
      by_cases hid : (m.id == j) = true
      · rw [if_pos hid]
        exact inv_flush_set j st.processed st.failed _ _ rfl rfl h
      · rw [if_neg hid]
        exact h
  | returned => exact h
  | threw msg => exact inv_catch j st.processed st.failed msg st.sys h
  | fuelOut => exact h

theorem traceOk_catch (j : Nat) (msg : String) (s : Sys) (h : TraceOk j s) :
    TraceOk j (catchUpdate j msg s) :=
  traceOk_flush j _ s h (fun r _ => leRec_merge_none r _ rfl rfl)

theorem processJob_traceOk (env : Env) (j : Nat) (session : Option Session)
    (b : Nat) (ro : Option Nat) (fuel : Nat) (s : Sys) (h : TraceOk j s) :
    TraceOk j (processJob env j session b ro fuel s).sys := by
  rw [processJob]
  by_cases hvs : validSession session = false
  · rw [if_pos hvs]
    exact traceOk_catch j _ s h
  · rw [if_neg hvs]
    have h1 : Inv j
        (match findRecord j (updateJobStatus true j ({ status := some Status.processing }) s).db
          with | some r => r.processed_products | none => 0)
        (match findRecord j (updateJobStatus true j ({ status := some Status.processing }) s).db
          with | some r => r.failed_products | none => 0)
        (updateJobStatus true j ({ status := some Status.processing }) s) :=
      ⟨traceOk_flush j _ s h (fun r _ => leRec_merge_none r _ rfl rfl),
       countersLe_read j _⟩
    by_cases htp : (match findRecord j
        (updateJobStatus true j ({ status := some Status.processing }) s).db
        with | some r => r.total_products | none => 0) = 0
    · rw [if_pos htp]
      cases hfd : env.feed 0 b with
      | error e =>
        simp only [hfd]
        exact traceOk_catch j e _ h1.1
      | ok ib =>
        simp only [hfd]
        exact (finishRun_inv j _ (pageLoop_inv env j b fuel _ _
          (inv_flush_none j _ _ _ _ rfl rfl h1))).1
    · rw [if_neg htp]
      exact (finishRun_inv j _ (pageLoop_inv env j b fuel _ _ h1)).1

theorem startSyncJob_trace (sess : Session) (ob : Option Int) (newId : Nat) (s : Sys) :
    (startSyncJob sess ob newId s).2.trace = s.trace := by
  simp only [startSyncJob]
  split
  · rfl
  · split
    · rfl
    · rfl

theorem resumeSyncJob_traceOk (env : Env) (j : Nat) (osess : Option Session)
    (ob : Option Int) (fuel : Nat) (s : Sys) (h : TraceOk j s) :
    TraceOk j (resumeSyncJob env j osess ob fuel s).2.sys := by
  simp only [resumeSyncJob]
  split
  · exact h
  · split
    · exact h
    · split
      · exact h
      · split
        · exact h
        · split
          · exact h
          · exact processJob_traceOk env j osess _ _ fuel _ h

theorem startAndRun_traceOk (env : Env) (sess : Session) (ob : Option Int)
    (newId fuel : Nat) (s : Sys) (h : s.trace = []) :
    TraceOk newId (startAndRun env sess ob newId fuel s).2.sys := by
  unfold startAndRun
  rcases hss : startSyncJob sess ob newId s with ⟨res, s2⟩
  have hs2 : s2.trace = [] := by
    have h2 := startSyncJob_trace sess ob newId s
    rw [hss] at h2
    rw [show s2 = (res, s2).2 from rfl, h2, h]
  cases res with
  | error e =>
    simp only [hss]
    exact traceOk_of_trace_nil newId s2 hs2
  | ok id2 =>
    have hid : id2 = newId := by
      simp only [startSyncJob] at hss
      split at hss
      · exact absurd (congrArg Prod.fst hss) (by simp)
      · split at hss
        · exact absurd (congrArg Prod.fst hss) (by simp)
        · exact (Except.ok.inj (congrArg Prod.fst hss)).symm
    simp only [hss]
    rw [hid]
    exact processJob_traceOk env newId (some sess) _ none fuel s2
      (traceOk_of_trace_nil newId s2 hs2)

/-- C4: along any system history built from a Start (under an arbitrary
feed, destination writer and pause schedule) followed by a Resume attempt
(under a second arbitrary environment), the trace of durable flushes of
the job's record is counterwise monotone: processedCount and failedCount
are never decremented, and processedCount + failedCount never decreases
from one flush to the next. -/
theorem flush_counters_monotone (env1 env2 : Env) (sess : Session) (b1 : Option Int)
    (fuel1 : Nat) (sess2 : Option Session) (b2 : Option Int) (fuel2 : Nat) :
    MonoTrace (runScenario env1 env2 sess b1 fuel1 sess2 b2 fuel2).trace :=
  (resumeSyncJob_traceOk env2 0 sess2 b2 fuel2 _
    (startAndRun_traceOk env1 sess b1 0 fuel1 sysEmpty rfl)).1

end SyncJobQueue
